import Mathlib

/-!
Shallow embedding of the two logic cores of the askba14 repository:
the GPA analyzer (`src/src/GPACalculator.tsx`) and the flashcard
study-session tracker (`src/unnamed/part_000`).

JavaScript numbers are modelled as exact rationals (`ℚ`): the rational
model tracks the code's branch structure and any comparison between
computations that accumulate in the same order.  It deliberately does
not model the rounding of IEEE-754 double accumulation, so properties
that hinge on reordering a double sum (which is not associative) are
out of this model's scope.  A grade is either empty (the `""` option of
the select widget) or one of the twelve letter grades, modelled as
`Option Grade`.
-/

namespace AskBA14

/-- The twelve letter grades offered by the grade selector. -/
inductive Grade
  | Ap | A | Am | Bp | B | Bm | Cp | C | Cm | Dp | D | F
deriving DecidableEq

/-- A course row: id, name, grade (`none` = the empty `""` option) and
credit weight, as in the `Course` type of `GPACalculator.tsx`. -/
structure Course where
  id : String
  name : String
  grade : Option Grade
  credits : ℚ
deriving DecidableEq

/-- The two selectable scales, `"4.0"` and `"4.3"`. -/
inductive GPAScale
  | s40 | s43
deriving DecidableEq

/-- `GRADE_VALUES_4_0` / `GRADE_VALUES_4_3`: the two tables differ only
on `A+`. -/
def gradeValues : GPAScale → Grade → ℚ
  | .s40, .Ap => 4
  | .s43, .Ap => 43/10
  | _, .A => 4
  | _, .Am => 37/10
  | _, .Bp => 33/10
  | _, .B => 3
  | _, .Bm => 27/10
  | _, .Cp => 23/10
  | _, .C => 2
  | _, .Cm => 17/10
  | _, .Dp => 13/10
  | _, .D => 1
  | _, .F => 0

/-- `maxGPA = scale === "4.0" ? 4.0 : 4.3`. -/
def maxGPA : GPAScale → ℚ
  | .s40 => 4
  | .s43 => 43/10

/-- The filter used by the `gpa` memo and the target analysis:
`course.grade && course.credits > 0`. -/
def contributes (c : Course) : Bool :=
  c.grade.isSome && decide (0 < c.credits)

/-- One iteration of the `courses.forEach` accumulation in the `gpa`
memo: the pair is `(totalPoints, totalCredits)`.  The source's `+=`
adds IEEE-754 doubles; the exact rational addition here is faithful for
claims that compare same-order accumulations, and is not used to settle
reorder-sensitive properties of the double sum. -/
def gpaStep (scale : GPAScale) (acc : ℚ × ℚ) (c : Course) : ℚ × ℚ :=
  match c.grade with
  | some g =>
      if 0 < c.credits then
        (acc.1 + gradeValues scale g * c.credits, acc.2 + c.credits)
      else acc
  | none => acc

/-- The accumulated `(totalPoints, totalCredits)` of the `gpa` memo. -/
def gpaTotals (scale : GPAScale) (courses : List Course) : ℚ × ℚ :=
  courses.foldl (gpaStep scale) (0, 0)

/-- The `gpa` memo of `GPACalculator.tsx`:
`totalCredits > 0 ? totalPoints / totalCredits : 0`. -/
def gpa (courses : List Course) (scale : GPAScale) : ℚ :=
  let t := gpaTotals scale courses
  if 0 < t.2 then t.1 / t.2 else 0

/-- Spec-side notion: the sublist of contributing courses. -/
def contributing (courses : List Course) : List Course :=
  courses.filter contributes

/-- Spec-side notion: the grade points contributed by a single course
(zero for a course with the empty grade). -/
def gradePoints (scale : GPAScale) (c : Course) : ℚ :=
  match c.grade with
  | some g => gradeValues scale g * c.credits
  | none => 0

/-- Spec-side notion: `Σ points(grade_i) × credits_i` over contributing
courses. -/
def sumPoints (scale : GPAScale) (courses : List Course) : ℚ :=
  ((contributing courses).map (gradePoints scale)).sum

/-- Spec-side notion: `Σ credits_i` over contributing courses. -/
def sumCredits (courses : List Course) : ℚ :=
  ((contributing courses).map Course.credits).sum

/-- Which message the analysis displays, together with the numeric
payload interpolated into the displayed string (the surrounding prose
is presentational). -/
inductive MessageKind
  | exceedsMax (maxValue : ℚ)
  | achieved
  | notAchievable
  | impossibleNeed (x : ℚ)
  | alreadyExceeded
  | need (x : ℚ) (remaining : ℚ)
deriving DecidableEq

/-- The object returned by the `targetGPAAnalysis` memo.  `requiredGPA`
is `none` when the source object carries no figure (the key is absent in
the ceiling branch and explicitly `null` in the no-remaining-credits
branch). -/
structure TargetResult where
  possible : Bool
  message : MessageKind
  requiredGPA : Option ℚ
deriving DecidableEq

/-- The `targetGPAAnalysis` memo of `GPACalculator.tsx`.  A `targetGPA`
string that is empty or does not parse as a number is modelled as
`none`, in which case the memo returns `null`. -/
def targetGPAAnalysis (targetGPA : Option ℚ) (scale : GPAScale)
    (courses : List Course) (totalCreditsRequired : ℚ) : Option TargetResult :=
  match targetGPA with
  | none => none
  | some target =>
    if maxGPA scale < target then
      some ⟨false, .exceedsMax (maxGPA scale), none⟩
    else
      let t := gpaTotals scale courses
      let currentTotalPoints := t.1
      let currentCredits := t.2
      let remainingCreditsNeeded := totalCreditsRequired - currentCredits
      if remainingCreditsNeeded ≤ 0 then
        some ⟨decide (target ≤ gpa courses scale),
          if target ≤ gpa courses scale then .achieved else .notAchievable,
          none⟩
      else
        let requiredGPAForRemaining :=
          (target * totalCreditsRequired - currentTotalPoints) / remainingCreditsNeeded
        if maxGPA scale < requiredGPAForRemaining then
          some ⟨false, .impossibleNeed requiredGPAForRemaining,
            some requiredGPAForRemaining⟩
        else if requiredGPAForRemaining < 0 then
          some ⟨true, .alreadyExceeded, some 0⟩
        else
          some ⟨true, .need requiredGPAForRemaining remainingCreditsNeeded,
            some requiredGPAForRemaining⟩

/-! Course-list operations of `GPACalculator.tsx`. -/

/-- `addCourse`: appends a fresh course with empty name, empty grade and
zero credits; the id is `Date.now().toString()` in the source, modelled
as a parameter. -/
def addCourse (courses : List Course) (newId : String) : List Course :=
  courses ++ [{ id := newId, name := "", grade := none, credits := 0 }]

/-- The update objects the course row actually sends to `updateCourse`:
a new name, a new grade selection, or a new credit value. -/
structure CourseUpdate where
  name : Option String := none
  grade : Option (Option Grade) := none
  credits : Option ℚ := none
deriving DecidableEq

/-- The `{ ...c, ...updates }` merge. -/
def applyUpdate (c : Course) (u : CourseUpdate) : Course :=
  { c with
    name := u.name.getD c.name
    grade := u.grade.getD c.grade
    credits := u.credits.getD c.credits }

/-- `updateCourse`: maps the update over the course with the given id. -/
def updateCourse (courses : List Course) (id : String) (u : CourseUpdate) :
    List Course :=
  courses.map fun c => if c.id = id then applyUpdate c u else c

/-- `deleteCourse`: removes the courses with the given id, but only when
the list currently has more than one entry. -/
def deleteCourse (courses : List Course) (id : String) : List Course :=
  if 1 < courses.length then courses.filter (fun c => c.id ≠ id) else courses

/-- One user action on the course list. -/
inductive CourseOp
  | add (newId : String)
  | update (id : String) (u : CourseUpdate)
  | delete (id : String)
deriving DecidableEq

/-- Apply one course-list action. -/
def applyOp (courses : List Course) : CourseOp → List Course
  | .add newId => addCourse courses newId
  | .update id u => updateCourse courses id u
  | .delete id => deleteCourse courses id

/-- Apply a sequence of course-list actions. -/
def applyOps (courses : List Course) (ops : List CourseOp) : List Course :=
  ops.foldl applyOp courses

/-- One action is well formed when, if it is an `add`, its id is not
already present (the source draws ids from `Date.now()`; the data model
declares course ids unique). -/
def opOK (courses : List Course) : CourseOp → Bool
  | .add newId => !decide (newId ∈ courses.map Course.id)
  | _ => true

/-- A trace is well formed when every action is, at its point of
application. -/
def opsOK : List Course → List CourseOp → Bool
  | _, [] => true
  | courses, op :: ops => opOK courses op && opsOK (applyOp courses op) ops

/-! Flashcards component (`src/unnamed/part_000`). -/

/-- The `Flashcard` type. -/
structure Flashcard where
  id : String
  front : String
  back : String
  mastered : Bool
deriving DecidableEq

/-- The `Deck` type. -/
structure Deck where
  id : String
  name : String
  cards : List Flashcard
deriving DecidableEq

/-- `cards.filter(c => c.mastered).length`. -/
def masteredCountOf (cards : List Flashcard) : Nat :=
  (cards.filter Flashcard.mastered).length

/-- The state of one open `StudyMode` session.  `deck` is the `deck`
prop: the `selectedDeck` reference captured when the session opened.
`updateDeck` in the parent replaces the deck object inside `decks` but
never updates `selectedDeck`, so this field stays the session-open
snapshot for the whole session. -/
structure StudyState where
  deck : Deck
  cards : List Flashcard
  currentIndex : Nat
  isFlipped : Bool
  masteredCount : Nat
  shuffled : Bool
deriving DecidableEq

/-- The parent `decks` state together with the open study session. -/
structure FlashApp where
  decks : List Deck
  session : StudyState
deriving DecidableEq

/-- The `useState` initialisers of `StudyMode`. -/
def openStudy (deck : Deck) : StudyState :=
  { deck := deck
    cards := deck.cards
    currentIndex := 0
    isFlipped := false
    masteredCount := masteredCountOf deck.cards
    shuffled := false }

/-- `updateDeck` of the parent component: replace the deck with the
matching id. -/
def updateDeck (decks : List Deck) (updatedDeck : Deck) : List Deck :=
  decks.map fun d => if d.id = updatedDeck.id then updatedDeck else d

/-- `shuffleCards`: `[...cards].sort(() => Math.random() - 0.5)` yields
some reordering of the working list; the reordering chosen by the
random comparator is a parameter.  Resets position and flip, sets the
`shuffled` flag. -/
def shuffleCards (app : FlashApp) (newOrder : List Flashcard) : FlashApp :=
  { app with session :=
    { app.session with
      cards := newOrder
      currentIndex := 0
      isFlipped := false
      shuffled := true } }

/-- `updated[currentIndex] = { ...updated[currentIndex], mastered }`:
replace the mastered flag of the card at the index (out-of-range index
leaves the list unchanged; the UI keeps the index in range). -/
def setMasteredAt : List Flashcard → Nat → Bool → List Flashcard
  | [], _, _ => []
  | c :: cs, 0, m => { c with mastered := m } :: cs
  | c :: cs, n + 1, m => c :: setMasteredAt cs n m

/-- `markMastered`: updates the working list and the derived mastered
count, and writes the working list through to the owning deck via
`onUpdateDeck({ ...deck, cards: updated })`. -/
def markMastered (app : FlashApp) (m : Bool) : FlashApp :=
  let updated := setMasteredAt app.session.cards app.session.currentIndex m
  { decks := updateDeck app.decks { app.session.deck with cards := updated }
    session :=
      { app.session with
        cards := updated
        masteredCount := masteredCountOf updated } }

/-- `nextCard`: advance unless at the last position; resets flip. -/
def nextCard (app : FlashApp) : FlashApp :=
  if app.session.currentIndex < app.session.cards.length - 1 then
    { app with session :=
      { app.session with
        currentIndex := app.session.currentIndex + 1
        isFlipped := false } }
  else app

/-- `prevCard`: symmetric at index 0. -/
def prevCard (app : FlashApp) : FlashApp :=
  if 0 < app.session.currentIndex then
    { app with session :=
      { app.session with
        currentIndex := app.session.currentIndex - 1
        isFlipped := false } }
  else app

/-- The card's `onFlip` handler: `setIsFlipped(!isFlipped)`. -/
def flipCard (app : FlashApp) : FlashApp :=
  { app with session := { app.session with isFlipped := !app.session.isFlipped } }

/-- `reset`: revert the working list to `deck.cards` (the session-open
snapshot held by the prop), reset position, flip, mastered count and
the shuffled flag. -/
def resetSession (app : FlashApp) : FlashApp :=
  { app with session :=
    { app.session with
      cards := app.session.deck.cards
      currentIndex := 0
      isFlipped := false
      masteredCount := masteredCountOf app.session.deck.cards
      shuffled := false } }

/-- `handleClose`: `onUpdateDeck({ ...deck, cards })` — the whole
working list is written back to the owning deck.  Returns the resulting
deck collection. -/
def closeSession (app : FlashApp) : List Deck :=
  updateDeck app.decks { app.session.deck with cards := app.session.cards }

/-- In-session user actions available between shuffle and reset. -/
inductive StudyOp
  | next
  | prev
  | flip
  | mark (m : Bool)
deriving DecidableEq

/-- Apply one in-session action. -/
def applyStudyOp (app : FlashApp) : StudyOp → FlashApp
  | .next => nextCard app
  | .prev => prevCard app
  | .flip => flipCard app
  | .mark m => markMastered app m

/-- Apply a sequence of in-session actions. -/
def runStudyOps (app : FlashApp) (ops : List StudyOp) : FlashApp :=
  ops.foldl applyStudyOp app

/-- `deleteDeck` of the parent component: unconditional filter, no
minimum-size guard. -/
def deleteDeck (decks : List Deck) (deckId : String) : List Deck :=
  decks.filter fun d => d.id ≠ deckId

/-! CSV import (`importCSV` in `src/unnamed/part_000`).  JavaScript
string splitting and trimming are embedded at character level so that
everything evaluates by kernel reduction. -/

/-- `text.split(sep)`: split a character list at every separator. -/
def splitOnChar (sep : Char) : List Char → List (List Char)
  | [] => [[]]
  | c :: cs =>
    match splitOnChar sep cs with
    | [] => [[]]
    | r :: rs => if c = sep then [] :: r :: rs else (c :: r) :: rs

/-- `s.trim()` on a character list (ASCII whitespace). -/
def trimChars (l : List Char) : List Char :=
  ((l.dropWhile Char.isWhitespace).reverse.dropWhile Char.isWhitespace).reverse

/-- `text.split(sep)` on strings. -/
def splitString (sep : Char) (s : String) : List String :=
  (splitOnChar sep s.toList).map String.mk

/-- `s.trim()` on strings. -/
def trimString (s : String) : String :=
  String.mk (trimChars s.toList)

/-- The `reader.onload` transformation of `importCSV`: split the payload
on newlines, drop blank lines, split every line on commas and trim the
fields, take field 0 as front and field 1 as back (missing fields become
`''`), then drop cards missing either side.  The `Date.now()` id stamp
is a parameter. -/
def importCSV (stamp : String) (text : String) : List Flashcard :=
  let lines := (splitString '\n' text).filter fun line => trimString line ≠ ""
  (lines.enum.map fun p =>
      let parts := (splitString ',' p.2).map trimString
      ({ id := stamp ++ "-" ++ toString p.1
         front := parts.getD 0 ""
         back := parts.getD 1 ""
         mastered := false } : Flashcard)).filter
    fun c => c.front ≠ "" && c.back ≠ ""

/-- `setDecks` at the end of `importCSV`: append the new cards to the
target deck. -/
def importCSVInto (decks : List Deck) (deckId : String) (stamp text : String) :
    List Deck :=
  decks.map fun d =>
    if d.id = deckId then { d with cards := d.cards ++ importCSV stamp text }
    else d

/-- Modelled from the spec's words for the import interface ("each
record split on the first comma into front/back text"): the front is
the text before the first comma and the back is all the text after it,
with the same trimming and dropping behaviour. -/
def importFirstComma (stamp : String) (text : String) : List Flashcard :=
  let lines := (splitString '\n' text).filter fun line => trimString line ≠ ""
  (lines.enum.map fun p =>
      let cs := p.2.toList
      let rest := cs.dropWhile (· ≠ ',')
      ({ id := stamp ++ "-" ++ toString p.1
         front := String.mk (trimChars (cs.takeWhile (· ≠ ',')))
         back := if rest.isEmpty then "" else String.mk (trimChars rest.tail)
         mastered := false } : Flashcard)).filter
    fun c => c.front ≠ "" && c.back ≠ ""

/-- The amended description of the record format: the back is the text
between the first and the second comma (text after a second comma is
discarded). -/
def importAmended (stamp : String) (text : String) : List Flashcard :=
  let lines := (splitString '\n' text).filter fun line => trimString line ≠ ""
  (lines.enum.map fun p =>
      let cs := p.2.toList
      let rest := cs.dropWhile (· ≠ ',')
      ({ id := stamp ++ "-" ++ toString p.1
         front := String.mk (trimChars (cs.takeWhile (· ≠ ',')))
         back := String.mk (trimChars (rest.tail.takeWhile (· ≠ ',')))
         mastered := false } : Flashcard)).filter
    fun c => c.front ≠ "" && c.back ≠ ""

/-! Concrete sample data used as witnesses and counterexample inputs. -/

/-- A three-credit course graded A. -/
def courseA : Course := { id := "1", name := "Math", grade := some .A, credits := 3 }

/-- A default course row, as produced at first load. -/
def course1 : Course := { id := "1", name := "Course 1", grade := none, credits := 3 }

/-- Sample flashcards and decks. -/
def cardA : Flashcard := { id := "a", front := "f1", back := "b1", mastered := false }

def cardB : Flashcard := { id := "b", front := "f2", back := "b2", mastered := false }

def sampleDeck : Deck := { id := "1", name := "Sample", cards := [cardA, cardB] }

def sampleDeck2 : Deck := { id := "2", name := "Other", cards := [] }

/-- A study session just opened on `sampleDeck`. -/
def sampleApp : FlashApp := { decks := [sampleDeck], session := openStudy sampleDeck }

/-- A study session just opened on `sampleDeck`, with a second deck in
the collection. -/
def sampleApp2 : FlashApp :=
  { decks := [sampleDeck, sampleDeck2], session := openStudy sampleDeck }

/-! Lemmas connecting the source's fold to the spec-side sums. -/

theorem gpaTotals_go (scale : GPAScale) (courses : List Course) :
    ∀ init : ℚ × ℚ, courses.foldl (gpaStep scale) init =
      (init.1 + sumPoints scale courses, init.2 + sumCredits courses) := by
  induction courses with
  | nil =>
      intro init
      simp [sumPoints, sumCredits, contributing]
  | cons c cs ih =>
      intro init
      rcases hg : c.grade with _ | g
      · have hc : contributes c = false := by
          simp [contributes, hg]
        simp only [List.foldl_cons, gpaStep, hg]
        rw [ih]
        simp [sumPoints, sumCredits, contributing, hc]
      · by_cases hpos : 0 < c.credits
        · have hc : contributes c = true := by
            simp [contributes, hg, hpos]
          simp only [List.foldl_cons, gpaStep, hg, if_pos hpos]
          rw [ih]
          simp only [sumPoints, sumCredits, contributing, List.filter_cons,
            hc, if_pos, List.map_cons, List.sum_cons, gradePoints, hg,
            Prod.mk.injEq]
          constructor <;> ring
        · have hc : contributes c = false := by
            simp [contributes, hg, hpos]
          simp only [List.foldl_cons, gpaStep, hg, if_neg hpos]
          rw [ih]
          simp [sumPoints, sumCredits, contributing, hc]

theorem gpaTotals_eq (scale : GPAScale) (courses : List Course) :
    gpaTotals scale courses = (sumPoints scale courses, sumCredits courses) := by
  have h := gpaTotals_go scale courses (0, 0)
  simpa [gpaTotals] using h

theorem sumCredits_pos_of_ne_nil (courses : List Course)
    (h : contributing courses ≠ []) : 0 < sumCredits courses := by
  have hall : ∀ q ∈ (contributing courses).map Course.credits, 0 < q := by
    intro q hq
    rcases List.mem_map.1 hq with ⟨c, hc, rfl⟩
    have hcontrib := (List.mem_filter.1 hc).2
    simp only [contributes, Bool.and_eq_true, decide_eq_true_eq] at hcontrib
    exact hcontrib.2
  have hne : (contributing courses).map Course.credits ≠ [] := by
    simpa using h
  exact List.sum_pos _ hall hne

theorem sumCredits_eq_zero_of_nil (courses : List Course)
    (h : contributing courses = []) : sumCredits courses = 0 := by
  simp [sumCredits, h]

/-- Core characterisation of the `gpa` memo: it is the weighted average
of grade points by credits over the contributing courses, and exactly 0
when no course contributes. -/
theorem gpa_eq_weighted_average (courses : List Course) (scale : GPAScale) :
    gpa courses scale =
      if contributing courses = [] then 0
      else sumPoints scale courses / sumCredits courses := by
  unfold gpa
  rw [gpaTotals_eq]
  by_cases h : contributing courses = []
  · simp [h, sumCredits_eq_zero_of_nil courses h]
  · have hpos := sumCredits_pos_of_ne_nil courses h
    simp [h, hpos]

/-! Supporting lemmas. -/

theorem splitOnChar_ne_nil (sep : Char) (l : List Char) :
    splitOnChar sep l ≠ [] := by
  cases l with
  | nil => simp [splitOnChar]
  | cons c cs =>
    simp only [splitOnChar]
    rcases h : splitOnChar sep cs with _ | ⟨r, rs⟩
    · simp
    · by_cases hc : c = sep <;> simp [hc]

theorem splitOnChar_first_two (sep : Char) (l : List Char) :
    (splitOnChar sep l).headD [] = l.takeWhile (· ≠ sep) ∧
    (splitOnChar sep l).tail.headD [] =
      ((l.dropWhile (· ≠ sep)).tail).takeWhile (· ≠ sep) := by
  induction l with
  | nil => simp [splitOnChar]
  | cons c cs ih =>
    simp only [splitOnChar]
    rcases h : splitOnChar sep cs with _ | ⟨r, rs⟩
    · exact absurd h (splitOnChar_ne_nil sep cs)
    · rw [h] at ih
      by_cases hc : c = sep
      · subst hc
        simp only [if_pos rfl]
        refine ⟨by simp, ?_⟩
        simpa using ih.1
      · simp only [if_neg hc]
        refine ⟨?_, ?_⟩
        · simpa [List.takeWhile_cons, hc] using congrArg (c :: ·) ih.1
        · simpa [List.dropWhile_cons, hc] using ih.2

theorem targetGPAAnalysis_ceiling (target : ℚ) (scale : GPAScale)
    (courses : List Course) (tot : ℚ) (h : maxGPA scale < target) :
    targetGPAAnalysis (some target) scale courses tot =
      some ⟨false, .exceedsMax (maxGPA scale), none⟩ := by
  simp only [targetGPAAnalysis, if_pos h]

theorem targetGPAAnalysis_noRemaining (target : ℚ) (scale : GPAScale)
    (courses : List Course) (tot : ℚ) (h1 : target ≤ maxGPA scale)
    (h2 : tot - sumCredits courses ≤ 0) :
    targetGPAAnalysis (some target) scale courses tot =
      some ⟨decide (target ≤ gpa courses scale),
        if target ≤ gpa courses scale then .achieved else .notAchievable,
        none⟩ := by
  simp only [targetGPAAnalysis, gpaTotals_eq]
  rw [if_neg (not_lt.2 h1), if_pos h2]

theorem targetGPAAnalysis_solve (target : ℚ) (scale : GPAScale)
    (courses : List Course) (tot : ℚ) (h1 : target ≤ maxGPA scale)
    (h2 : 0 < tot - sumCredits courses) :
    targetGPAAnalysis (some target) scale courses tot =
      (if maxGPA scale <
          (target * tot - sumPoints scale courses) / (tot - sumCredits courses) then
        some ⟨false,
          .impossibleNeed
            ((target * tot - sumPoints scale courses) / (tot - sumCredits courses)),
          some ((target * tot - sumPoints scale courses) / (tot - sumCredits courses))⟩
      else if (target * tot - sumPoints scale courses) / (tot - sumCredits courses) < 0 then
        some ⟨true, .alreadyExceeded, some 0⟩
      else
        some ⟨true,
          .need ((target * tot - sumPoints scale courses) / (tot - sumCredits courses))
            (tot - sumCredits courses),
          some ((target * tot - sumPoints scale courses) / (tot - sumCredits courses))⟩) := by
  simp only [targetGPAAnalysis, gpaTotals_eq]
  rw [if_neg (not_lt.2 h1), if_neg (not_le.2 h2)]

theorem applyUpdate_id (c : Course) (u : CourseUpdate) :
    (applyUpdate c u).id = c.id := rfl

theorem updateCourse_map_id (courses : List Course) (id : String)
    (u : CourseUpdate) :
    (updateCourse courses id u).map Course.id = courses.map Course.id := by
  simp only [updateCourse, List.map_map]
  apply List.map_congr_left
  intro c _
  by_cases h : c.id = id <;> simp [h, applyUpdate_id]

theorem filter_ne_length_ge (courses : List Course) (id : String)
    (h : (courses.map Course.id).Nodup) :
    courses.length - 1 ≤ (courses.filter (fun c => c.id ≠ id)).length := by
  induction courses with
  | nil => simp
  | cons c cs ih =>
    rw [List.map_cons, List.nodup_cons] at h
    by_cases hc : c.id = id
    · have hall : cs.filter (fun c => c.id ≠ id) = cs := by
        apply List.filter_eq_self.2
        intro x hx
        simp only [ne_eq, decide_eq_true_eq]
        intro hxid
        exact h.1 (by rw [hc, ← hxid]; exact List.mem_map_of_mem Course.id hx)
      rw [List.filter_cons_of_neg (by simp [hc]), hall]
      simp
    · have hih := ih h.2
      rw [List.filter_cons_of_pos (by simp [hc])]
      simp only [List.length_cons]
      omega

theorem deleteCourse_ne_nil (courses : List Course) (id : String)
    (hne : courses ≠ []) (h : (courses.map Course.id).Nodup) :
    deleteCourse courses id ≠ [] := by
  unfold deleteCourse
  by_cases hl : 1 < courses.length
  · have h1 := filter_ne_length_ge courses id h
    rw [if_pos hl]
    intro hcon
    rw [hcon] at h1
    simp at h1
    omega
  · rw [if_neg hl]
    exact hne

theorem deleteCourse_nodup (courses : List Course) (id : String)
    (h : (courses.map Course.id).Nodup) :
    ((deleteCourse courses id).map Course.id).Nodup := by
  unfold deleteCourse
  by_cases hl : 1 < courses.length
  · rw [if_pos hl]
    exact h.sublist (List.Sublist.map Course.id (List.filter_sublist courses))
  · rw [if_neg hl]
    exact h

theorem applyOp_preserves (courses : List Course) (op : CourseOp)
    (hne : courses ≠ []) (hnd : (courses.map Course.id).Nodup)
    (hok : opOK courses op = true) :
    applyOp courses op ≠ [] ∧ ((applyOp courses op).map Course.id).Nodup := by
  cases op with
  | add newId =>
    simp only [opOK, Bool.not_eq_true', decide_eq_false_iff_not] at hok
    refine ⟨by simp [applyOp, addCourse], ?_⟩
    simp only [applyOp, addCourse, List.map_append, List.map_cons, List.map_nil]
    have hperm : List.Perm (courses.map Course.id ++ [newId])
        (newId :: courses.map Course.id) := List.perm_append_singleton _ _
    exact (List.nodup_cons.2 ⟨hok, hnd⟩).perm hperm.symm
  | update id u =>
    refine ⟨?_, ?_⟩
    · simp only [applyOp, updateCourse, ne_eq, List.map_eq_nil_iff]
      exact hne
    · rw [applyOp, updateCourse_map_id]
      exact hnd
  | delete id =>
    exact ⟨deleteCourse_ne_nil courses id hne hnd, deleteCourse_nodup courses id hnd⟩

theorem applyOps_ne_nil (courses : List Course) (ops : List CourseOp)
    (hne : courses ≠ []) (hnd : (courses.map Course.id).Nodup)
    (hok : opsOK courses ops = true) : applyOps courses ops ≠ [] := by
  induction ops generalizing courses with
  | nil => simpa [applyOps] using hne
  | cons op ops ih =>
    simp only [opsOK, Bool.and_eq_true] at hok
    have hstep := applyOp_preserves courses op hne hnd hok.1
    have := ih (applyOp courses op) hstep.1 hstep.2 hok.2
    simpa [applyOps] using this

theorem runStudyOps_deck (app : FlashApp) (ops : List StudyOp) :
    (runStudyOps app ops).session.deck = app.session.deck := by
  induction ops generalizing app with
  | nil => rfl
  | cons op ops ih =>
    rw [runStudyOps, List.foldl_cons]
    rw [show List.foldl applyStudyOp (applyStudyOp app op) ops =
      runStudyOps (applyStudyOp app op) ops from rfl, ih]
    cases op with
    | next =>
      simp only [applyStudyOp, nextCard]
      split <;> rfl
    | prev =>
      simp only [applyStudyOp, prevCard]
      split <;> rfl
    | flip => rfl
    | mark m => rfl

theorem parts_first_two (line : String) :
    ((splitString ',' line).map trimString).getD 0 "" =
      String.mk (trimChars (line.toList.takeWhile (· ≠ ','))) ∧
    ((splitString ',' line).map trimString).getD 1 "" =
      String.mk (trimChars
        (((line.toList.dropWhile (· ≠ ',')).tail).takeWhile (· ≠ ','))) := by
  have hcomp : (splitString ',' line).map trimString =
      (splitOnChar ',' line.toList).map (fun l => String.mk (trimChars l)) := by
    simp only [splitString, List.map_map]
    rfl
  rw [hcomp]
  have h2 := splitOnChar_first_two ',' line.toList
  rcases hx : splitOnChar ',' line.toList with _ | ⟨a, rest⟩
  · exact absurd hx (splitOnChar_ne_nil ',' line.toList)
  · rw [hx] at h2
    have ha : a = line.toList.takeWhile (· ≠ ',') := by simpa using h2.1
    rcases rest with _ | ⟨b, t⟩
    · have hb : ((line.toList.dropWhile (· ≠ ',')).tail).takeWhile (· ≠ ',') = [] := by
        simpa using h2.2.symm
      refine ⟨by simp [ha], ?_⟩
      rw [hb]
      simp [trimChars]
    · have hb : b = ((line.toList.dropWhile (· ≠ ',')).tail).takeWhile (· ≠ ',') := by
        simpa using h2.2
      exact ⟨by simp [ha], by simp [hb]⟩

theorem importCSV_eq_importAmended (stamp text : String) :
    importCSV stamp text = importAmended stamp text := by
  unfold importCSV importAmended
  dsimp only
  congr 1
  apply List.map_congr_left
  intro p _
  have h := parts_first_two p.2
  rw [h.1, h.2]

theorem mem_updateDeck_of_ne (decks : List Deck) (nd d : Deck)
    (hmem : d ∈ decks) (hne : d.id ≠ nd.id) : d ∈ updateDeck decks nd := by
  simp only [updateDeck, List.mem_map]
  exact ⟨d, hmem, if_neg hne⟩

theorem eq_of_mem_updateDeck (decks : List Deck) (nd d : Deck)
    (hmem : d ∈ updateDeck decks nd) (hid : d.id = nd.id) : d = nd := by
  simp only [updateDeck, List.mem_map] at hmem
  rcases hmem with ⟨pre, _, heq⟩
  by_cases hp : pre.id = nd.id
  · rw [if_pos hp] at heq
    exact heq.symm
  · rw [if_neg hp] at heq
    rw [← heq] at hid
    exact absurd hid hp

/-! Claim theorems. -/

/-- Claim C1: for every course list and scale, the current-GPA
computation (the `gpa` memo) equals the weighted average
`Σ points(grade_i) × credits_i / Σ credits_i` over exactly the courses
whose grade is non-empty and whose credits are strictly positive, and
returns exactly 0 whenever no course passes that filter.  The function
is total, so the operation always succeeds with no error condition. -/
theorem c1_computeCurrentGPA_weighted_average (courses : List Course)
    (scale : GPAScale) :
    gpa courses scale =
      if contributing courses = [] then 0
      else sumPoints scale courses / sumCredits courses :=
  gpa_eq_weighted_average courses scale

/-- Claim C2: when the target parses, is within the scale ceiling, and
remaining credits are strictly positive, the analysis computes
`requiredRemaining = (target × totalCreditsRequired − currentPoints) /
remainingCredits` over contributing courses and returns: impossible with
that figure when it exceeds the ceiling; possible with `requiredGPA = 0`
when it is negative; possible with the figure otherwise. -/
theorem c2_analyzeTarget_solver (courses : List Course) (scale : GPAScale)
    (target tot : ℚ) (h1 : target ≤ maxGPA scale)
    (h2 : 0 < tot - sumCredits courses) :
    targetGPAAnalysis (some target) scale courses tot =
      (if maxGPA scale <
          (target * tot - sumPoints scale courses) / (tot - sumCredits courses) then
        some ⟨false,
          .impossibleNeed
            ((target * tot - sumPoints scale courses) / (tot - sumCredits courses)),
          some ((target * tot - sumPoints scale courses) / (tot - sumCredits courses))⟩
      else if (target * tot - sumPoints scale courses) / (tot - sumCredits courses) < 0 then
        some ⟨true, .alreadyExceeded, some 0⟩
      else
        some ⟨true,
          .need ((target * tot - sumPoints scale courses) / (tot - sumCredits courses))
            (tot - sumCredits courses),
          some ((target * tot - sumPoints scale courses) / (tot - sumCredits courses))⟩) :=
  targetGPAAnalysis_solve target scale courses tot h1 h2

theorem c2_analyzeTarget_solver_witness :
    (4 : ℚ) ≤ maxGPA .s40 ∧ (0 : ℚ) < 120 - sumCredits [] ∧
    targetGPAAnalysis (some 4) .s40 [] 120 =
      (if maxGPA .s40 < ((4 : ℚ) * 120 - sumPoints .s40 []) / (120 - sumCredits []) then
        some ⟨false,
          .impossibleNeed (((4 : ℚ) * 120 - sumPoints .s40 []) / (120 - sumCredits [])),
          some (((4 : ℚ) * 120 - sumPoints .s40 []) / (120 - sumCredits []))⟩
      else if ((4 : ℚ) * 120 - sumPoints .s40 []) / (120 - sumCredits []) < 0 then
        some ⟨true, .alreadyExceeded, some 0⟩
      else
        some ⟨true,
          .need (((4 : ℚ) * 120 - sumPoints .s40 []) / (120 - sumCredits []))
            (120 - sumCredits []),
          some (((4 : ℚ) * 120 - sumPoints .s40 []) / (120 - sumCredits []))⟩) :=
  ⟨by simp [maxGPA], by simp [sumCredits, contributing],
    c2_analyzeTarget_solver [] .s40 4 120 (by simp [maxGPA])
      (by simp [sumCredits, contributing])⟩

/-- Claim C3: when the target parses and exceeds the scale ceiling, the
analysis reports impossible before any credit arithmetic; the result is
a constant independent of the course data. -/
theorem c3_target_exceeds_max (target : ℚ) (scale : GPAScale)
    (courses courses' : List Course) (tot : ℚ) (h : maxGPA scale < target) :
    targetGPAAnalysis (some target) scale courses tot =
      some ⟨false, .exceedsMax (maxGPA scale), none⟩ ∧
    targetGPAAnalysis (some target) scale courses tot =
      targetGPAAnalysis (some target) scale courses' tot :=
  ⟨targetGPAAnalysis_ceiling target scale courses tot h,
    (targetGPAAnalysis_ceiling target scale courses tot h).trans
      (targetGPAAnalysis_ceiling target scale courses' tot h).symm⟩

theorem c3_target_exceeds_max_witness :
    maxGPA .s40 < (5 : ℚ) ∧
    targetGPAAnalysis (some 5) .s40 [courseA] 120 =
      some ⟨false, .exceedsMax (maxGPA .s40), none⟩ ∧
    targetGPAAnalysis (some 5) .s40 [courseA] 120 =
      targetGPAAnalysis (some 5) .s40 [] 120 :=
  ⟨by simp only [maxGPA]; decide,
    (c3_target_exceeds_max 5 .s40 [courseA] [] 120 (by simp only [maxGPA]; decide)).1,
    (c3_target_exceeds_max 5 .s40 [courseA] [] 120 (by simp only [maxGPA]; decide)).2⟩

/-- Claim C4: when the target parses, is within the ceiling, and the
remaining credits are non-positive, the analysis answers
`possible = (currentGPA ≥ targetGPA)` and carries no requiredGPA
figure. -/
theorem c4_no_remaining_credits (courses : List Course) (scale : GPAScale)
    (target tot : ℚ) (h1 : target ≤ maxGPA scale)
    (h2 : tot - sumCredits courses ≤ 0) :
    ∃ r, targetGPAAnalysis (some target) scale courses tot = some r ∧
      (r.possible = true ↔ target ≤ gpa courses scale) ∧
      r.requiredGPA = none := by
  refine ⟨_, targetGPAAnalysis_noRemaining target scale courses tot h1 h2, ?_, rfl⟩
  simp

theorem c4_no_remaining_credits_witness :
    (4 : ℚ) ≤ maxGPA .s40 ∧ (3 : ℚ) - sumCredits [courseA] ≤ 0 ∧
    ∃ r, targetGPAAnalysis (some 4) .s40 [courseA] 3 = some r ∧
      (r.possible = true ↔ (4 : ℚ) ≤ gpa [courseA] .s40) ∧
      r.requiredGPA = none :=
  ⟨by simp [maxGPA],
    by simp [sumCredits, contributing, contributes, courseA],
    c4_no_remaining_credits [courseA] .s40 4 3 (by simp [maxGPA])
      (by simp [sumCredits, contributing, contributes, courseA])⟩

/-- Claim C5 counterexample: on a two-card deck, after shuffle, marking
the current card mastered, and reset, the working list's mastery flag is
back at its pre-session value `false` (and the mastered count drops from
1 to 0), even though `markMastered` had set it `true`: the flag change
does not persist in the working list; it survives only in the owning
deck collection, which `reset` leaves untouched. -/
theorem c5_mastery_rolled_back_on_reset :
    (markMastered (shuffleCards sampleApp [cardB, cardA]) true).session.cards.map
        Flashcard.mastered = [true, false] ∧
    (markMastered (shuffleCards sampleApp [cardB, cardA]) true).session.masteredCount = 1 ∧
    (resetSession (markMastered (shuffleCards sampleApp [cardB, cardA]) true)).session.cards.map
        Flashcard.mastered = [false, false] ∧
    (resetSession (markMastered (shuffleCards sampleApp [cardB, cardA]) true)).session.masteredCount = 0 ∧
    (markMastered (shuffleCards sampleApp [cardB, cardA]) true).decks =
      [{ id := "1", name := "Sample", cards := [{ cardB with mastered := true }, cardA] }] ∧
    (resetSession (markMastered (shuffleCards sampleApp [cardB, cardA]) true)).decks =
      [{ id := "1", name := "Sample", cards := [{ cardB with mastered := true }, cardA] }] ∧
    List.Perm [cardB, cardA] sampleDeck.cards :=
  ⟨by decide, by decide, by decide, by decide, by decide, by decide,
    List.Perm.swap cardA cardB []⟩

/-- Claim C5 (amended): `shuffle()` followed by any in-session actions
and then `reset()` restores the working list to the exact card sequence
captured at session open, with index 0, flip state Browsing and the
shuffled flag cleared; the mastered count reverts to the snapshot's
count, and the deck collection — which received the `markMastered`
write-throughs — is left untouched by the reset, so mastery changes
persist there (but not in the working list). -/
theorem c5_shuffle_reset_amended (decks : List Deck) (d : Deck)
    (newOrder : List Flashcard) (ops : List StudyOp)
    (hperm : List.Perm newOrder d.cards) :
    (resetSession (runStudyOps (shuffleCards ⟨decks, openStudy d⟩ newOrder) ops)).session.cards = d.cards ∧
    (resetSession (runStudyOps (shuffleCards ⟨decks, openStudy d⟩ newOrder) ops)).session.currentIndex = 0 ∧
    (resetSession (runStudyOps (shuffleCards ⟨decks, openStudy d⟩ newOrder) ops)).session.isFlipped = false ∧
    (resetSession (runStudyOps (shuffleCards ⟨decks, openStudy d⟩ newOrder) ops)).session.shuffled = false ∧
    (resetSession (runStudyOps (shuffleCards ⟨decks, openStudy d⟩ newOrder) ops)).session.masteredCount =
      masteredCountOf d.cards ∧
    (resetSession (runStudyOps (shuffleCards ⟨decks, openStudy d⟩ newOrder) ops)).decks =
      (runStudyOps (shuffleCards ⟨decks, openStudy d⟩ newOrder) ops).decks := by
  have hdeck : (runStudyOps (shuffleCards ⟨decks, openStudy d⟩ newOrder) ops).session.deck = d := by
    rw [runStudyOps_deck]
    rfl
  exact ⟨by simp [resetSession, hdeck], rfl, rfl, rfl,
    by simp [resetSession, hdeck], rfl⟩

theorem c5_shuffle_reset_amended_witness :
    List.Perm [cardB, cardA] sampleDeck.cards ∧
    (resetSession (runStudyOps (shuffleCards ⟨[sampleDeck], openStudy sampleDeck⟩ [cardB, cardA]) [.mark true])).session.cards = sampleDeck.cards ∧
    (resetSession (runStudyOps (shuffleCards ⟨[sampleDeck], openStudy sampleDeck⟩ [cardB, cardA]) [.mark true])).session.currentIndex = 0 ∧
    (resetSession (runStudyOps (shuffleCards ⟨[sampleDeck], openStudy sampleDeck⟩ [cardB, cardA]) [.mark true])).session.isFlipped = false ∧
    (resetSession (runStudyOps (shuffleCards ⟨[sampleDeck], openStudy sampleDeck⟩ [cardB, cardA]) [.mark true])).session.shuffled = false ∧
    (resetSession (runStudyOps (shuffleCards ⟨[sampleDeck], openStudy sampleDeck⟩ [cardB, cardA]) [.mark true])).session.masteredCount =
      masteredCountOf sampleDeck.cards ∧
    (resetSession (runStudyOps (shuffleCards ⟨[sampleDeck], openStudy sampleDeck⟩ [cardB, cardA]) [.mark true])).decks =
      (runStudyOps (shuffleCards ⟨[sampleDeck], openStudy sampleDeck⟩ [cardB, cardA]) [.mark true]).decks :=
  ⟨List.Perm.swap cardA cardB [],
    c5_shuffle_reset_amended [sampleDeck] sampleDeck [cardB, cardA] [.mark true]
      (List.Perm.swap cardA cardB [])⟩

/-- Claim C6 counterexample: closing a session right after a shuffle
persists the shuffled order into the owning deck: the deck's card
sequence after close is `["b", "a"]`, not the session-open order
`["a", "b"]` — the shuffle is not discarded. -/
theorem c6_close_persists_shuffle :
    (closeSession (shuffleCards sampleApp [cardB, cardA])).map
        (fun dd => dd.cards.map Flashcard.id) = [["b", "a"]] ∧
    sampleDeck.cards.map Flashcard.id = ["a", "b"] ∧
    List.Perm [cardB, cardA] sampleDeck.cards ∧
    (closeSession (shuffleCards sampleApp [cardB, cardA])).map
        (fun dd => dd.cards.map Flashcard.id) ≠ [sampleDeck.cards.map Flashcard.id] :=
  ⟨by decide, by decide, List.Perm.swap cardA cardB [], by decide⟩

/-- Claim C6 (amended): on close the owning deck receives the whole
working list — mastery flags and order alike, so an undone shuffle does
become the persisted order — while the deck keeps its snapshot id and
name and every other deck is unchanged. -/
theorem c6_close_amended (app : FlashApp) :
    closeSession app = app.decks.map (fun dd =>
      if dd.id = app.session.deck.id then
        { id := app.session.deck.id, name := app.session.deck.name,
          cards := app.session.cards }
      else dd) ∧
    (∀ dd ∈ app.decks, dd.id ≠ app.session.deck.id → dd ∈ closeSession app) ∧
    (∀ dd ∈ closeSession app, dd.id = app.session.deck.id →
      dd.cards = app.session.cards ∧ dd.name = app.session.deck.name) := by
  refine ⟨rfl, ?_, ?_⟩
  · intro dd hmem hne
    exact mem_updateDeck_of_ne app.decks _ dd hmem hne
  · intro dd hmem hid
    have := eq_of_mem_updateDeck app.decks
      { app.session.deck with cards := app.session.cards } dd hmem hid
    rw [this]
    exact ⟨rfl, rfl⟩

theorem c6_close_amended_witness :
    sampleDeck2 ∈ closeSession (shuffleCards sampleApp2 [cardB, cardA]) ∧
    ({ id := "1", name := "Sample", cards := [cardB, cardA] } : Deck).cards =
      (shuffleCards sampleApp2 [cardB, cardA]).session.cards ∧
    ({ id := "1", name := "Sample", cards := [cardB, cardA] } : Deck).name =
      (shuffleCards sampleApp2 [cardB, cardA]).session.deck.name :=
  ⟨(c6_close_amended (shuffleCards sampleApp2 [cardB, cardA])).2.1 sampleDeck2
      (by decide) (by decide),
    ((c6_close_amended (shuffleCards sampleApp2 [cardB, cardA])).2.2
      { id := "1", name := "Sample", cards := [cardB, cardA] }
      (by decide) (by decide)).1,
    ((c6_close_amended (shuffleCards sampleApp2 [cardB, cardA])).2.2
      { id := "1", name := "Sample", cards := [cardB, cardA] }
      (by decide) (by decide)).2⟩

/-- Claim C7 counterexample: the import does not split a record on the
first comma: on the record `"Q,A,B"` the code takes only the second
comma-separated field as the back (`"A"`), whereas splitting on the
first comma would give `"A,B"`. -/
theorem c7_not_first_comma :
    (importCSV "s" "Q,A,B").map (fun c => (c.front, c.back)) = [("Q", "A")] ∧
    (importFirstComma "s" "Q,A,B").map (fun c => (c.front, c.back)) = [("Q", "A,B")] ∧
    importCSV "s" "Q,A,B" ≠ importFirstComma "s" "Q,A,B" :=
  ⟨by decide, by decide, by decide⟩

/-- Claim C7 (amended): the import splits the payload into
newline-separated records (blank records ignored), splits each record on
commas taking the first field as front and the second as back (text
after a second comma is discarded), silently drops records missing
either side, and appends the surviving cards to the target deck; the
payload `"Q1,A1\nBadLineNoComma\nQ2,A2"` yields exactly the two cards
Q1/A1 and Q2/A2. -/
theorem c7_import_amended :
    (∀ stamp text, importCSV stamp text = importAmended stamp text) ∧
    (∀ decks deckId stamp text, importCSVInto decks deckId stamp text =
      decks.map fun d =>
        if d.id = deckId then { d with cards := d.cards ++ importCSV stamp text }
        else d) ∧
    (importCSV "s" "Q1,A1\nBadLineNoComma\nQ2,A2").map
      (fun c => (c.front, c.back)) = [("Q1", "A1"), ("Q2", "A2")] :=
  ⟨importCSV_eq_importAmended, fun _ _ _ _ => rfl, by decide⟩

/-- Claim C8: deleting from a one-entry course list is a no-op, and any
sequence of add/update/delete actions starting from a non-empty list
with unique ids (adds using fresh ids, as the data model requires)
leaves the list non-empty. -/
theorem c8_course_list_min_one (courses : List Course) (id : String)
    (ops : List CourseOp) (h1 : courses ≠ [])
    (h2 : (courses.map Course.id).Nodup) (h3 : opsOK courses ops = true) :
    (courses.length = 1 → deleteCourse courses id = courses) ∧
    applyOps courses ops ≠ [] := by
  refine ⟨?_, applyOps_ne_nil courses ops h1 h2 h3⟩
  intro hlen
  unfold deleteCourse
  rw [if_neg (by omega)]

theorem c8_course_list_min_one_witness :
    ([course1] : List Course) ≠ [] ∧
    (([course1] : List Course).map Course.id).Nodup ∧
    opsOK [course1] [.add "2", .delete "1", .delete "2"] = true ∧
    (([course1] : List Course).length = 1 → deleteCourse [course1] "1" = [course1]) ∧
    applyOps [course1] [.add "2", .delete "1", .delete "2"] ≠ [] :=
  ⟨by simp, by simp, by decide,
    (c8_course_list_min_one [course1] "1" [.add "2", .delete "1", .delete "2"]
      (by simp) (by simp) (by decide)).1,
    (c8_course_list_min_one [course1] "1" [.add "2", .delete "1", .delete "2"]
      (by simp) (by simp) (by decide)).2⟩

/-- Claim C10: `deleteDeck` removes the deck with the given id
unconditionally — every surviving deck has a different id, every other
deck survives, and deleting the only remaining deck leaves the
collection empty (no minimum-one rule, unlike the course list). -/
theorem c10_deleteDeck_unconditional (decks : List Deck) (i : String) :
    (∀ d ∈ deleteDeck decks i, d.id ≠ i) ∧
    (∀ d ∈ decks, d.id ≠ i → d ∈ deleteDeck decks i) ∧
    (∀ d : Deck, deleteDeck [d] d.id = []) := by
  refine ⟨?_, ?_, ?_⟩
  · intro d hd
    have := List.of_mem_filter hd
    simpa using this
  · intro d hd hne
    exact List.mem_filter.2 ⟨hd, by simpa using hne⟩
  · intro d
    simp [deleteDeck]

theorem c10_deleteDeck_unconditional_witness :
    sampleDeck2 ∈ deleteDeck [sampleDeck, sampleDeck2] "1" ∧
    deleteDeck [sampleDeck] sampleDeck.id = [] :=
  ⟨(c10_deleteDeck_unconditional [sampleDeck, sampleDeck2] "1").2.1 sampleDeck2
      (by decide) (by decide),
    (c10_deleteDeck_unconditional [sampleDeck] "1").2.2 sampleDeck⟩

end AskBA14
